import Mathlib

/-!
Shallow embedding of the z2l RISC-V emulator core (crates z2l-core and
z2l-isa) in Lean 4, together with theorems settling the specification
claims about it.

Modelling conventions:
- Rust u32 values are Nat values (callers maintain the bound 2^32 where
  relevant); u32 arithmetic that can wrap takes an explicit mod 2^32.
- Rust i32 values are Int values in the range [-2^31, 2^31); casts between
  u32 and i32 reinterpret two-complement bit patterns explicitly.
- Rust usize values are Nat values; the i32-to-usize cast sign-extends to
  64 bits, as on the 64-bit targets the crate builds for.
- Fallible Rust functions returning Result are modelled with Except.
  Memory-device operations, which can also hit a Rust panic through slice
  indexing, return the three-valued MemOp type instead.
- Mutation (of the register file, the hart, the MMU, the processor) is
  modelled by returning the updated value alongside the function result.
-/

namespace Z2L

/-! ### Machine integer helpers -/

/-- Reinterpret a u32 bit pattern (a Nat below 2^32) as an i32 value. -/
def i32ofNat (n : Nat) : Int :=
  if n < 2147483648 then (n : Int) else (n : Int) - 4294967296

/-- Reinterpret an i32 value as a u32 bit pattern (Rust cast as u32). -/
def u32ofInt (x : Int) : Nat :=
  (Int.emod x 4294967296).toNat

/-- Two-complement wrap of an integer into the i32 range. Wrapping i32
arithmetic (wrapping_add, wrapping_sub, ...) is this applied to the exact
result. -/
def i32wrap (x : Int) : Int :=
  i32ofNat (u32ofInt x)

/-- Arithmetic shift right of an i32 value, as Rust i32 shr: rounds
toward negative infinity, hence floor division by a power of two. -/
def i32asr (x : Int) (k : Nat) : Int :=
  Int.fdiv x (2 ^ k)

/-- Rust u32 shl: bits shifted beyond position 31 are discarded. -/
def u32shl (x k : Nat) : Nat :=
  (x <<< k) % 4294967296

/-- Bitwise and of two i32 values via their u32 bit patterns. -/
def i32land (a b : Int) : Int :=
  i32ofNat (u32ofInt a &&& u32ofInt b)

/-- Bitwise or of two i32 values via their u32 bit patterns. -/
def i32lor (a b : Int) : Int :=
  i32ofNat (u32ofInt a ||| u32ofInt b)

/-- Bitwise xor of two i32 values via their u32 bit patterns. -/
def i32xor (a b : Int) : Int :=
  i32ofNat (u32ofInt a ^^^ u32ofInt b)

/-- Rust i32 wrapping_shl: shift amount taken mod 32, value bits wrap. -/
def i32shlWrap (x : Int) (k : Nat) : Int :=
  i32wrap (x * 2 ^ (k % 32))

/-- Rust u32 wrapping_shr (logical shift): shift amount taken mod 32. -/
def u32shrWrap (x k : Nat) : Nat :=
  x >>> (k % 32)

/-- Rust i32 wrapping_shr (arithmetic shift): shift amount taken mod 32. -/
def i32shrWrap (x : Int) (k : Nat) : Int :=
  i32asr x (k % 32)

/-- Rust cast of an i32 to usize: sign-extension to 64 bits. -/
def usizeOfI32 (x : Int) : Nat :=
  (Int.emod x 18446744073709551616).toNat

/-! ### Error types (core/src/error.rs) -/

/-- An exception relating to a load or store from the MMU. -/
inductive MemoryAccessError where
  | outOfBounds
  | readOnly
  | lengthMismatch
deriving DecidableEq

/-- An exception encountered by a hart during execution. -/
inductive ProcessorException where
  | illegalInstruction
  | instructionAddressMisaligned
  | invalidMemoryAccess (e : MemoryAccessError)
  | environmentCall
  | environmentBreak
deriving DecidableEq

/-- Lift a memory access error into a processor exception, mirroring the
From impl in core/src/error.rs. -/
def MemoryAccessError.toProcessorException (e : MemoryAccessError) : ProcessorException :=
  ProcessorException.invalidMemoryAccess e

/-! ### Instruction word parts (core/src/instruction/parts.rs) -/

/-- Length of a RISC-V instruction, from core/src/instruction/mod.rs. -/
inductive InstructionLength where
  | halfWord
  | word
  | wordAndHalf
  | doubleWord
  | custom (bits : Nat)
  | reserved
deriving DecidableEq

/-- Component parts of an instruction of the standard 32-bit length,
extracted exactly as in InstructionWordParts::new. -/
structure InstructionWordParts where
  raw : Nat
  opcode : Nat
  rd : Nat
  rs1 : Nat
  rs2 : Nat
  funct3 : Nat
  funct7 : Nat
  imm_i : Int
  imm_s : Int
  imm_b : Int
  imm_u : Int
  imm_j : Int
deriving DecidableEq

/-- Extract the raw component parts of a 32-bit instruction
(InstructionWordParts::new). Masks, shifts, casts and arithmetic shifts
mirror the Rust source line by line. -/
def InstructionWordParts.new (raw : Nat) : InstructionWordParts :=
  { raw := raw
    opcode := raw &&& 0x7f
    rd := (raw &&& 0xf80) >>> 7
    rs1 := (raw &&& 0xf8000) >>> 15
    rs2 := (raw &&& 0x1f00000) >>> 20
    funct3 := (raw &&& 0x7000) >>> 12
    funct7 := (raw &&& 0xfe000000) >>> 25
    imm_i := i32asr (i32ofNat (raw &&& 0xfff00000)) 20
    imm_s := i32asr (i32ofNat ((raw &&& 0xfe000000) ||| u32shl (raw &&& 0xf80) 13)) 20
    imm_b := i32asr (i32ofNat ((raw &&& 0x80000000) ||| u32shl (raw &&& 0x80) 23 |||
      (raw &&& 0x7e000000) >>> 1 ||| u32shl (raw &&& 0xf00) 12)) 19
    imm_u := i32ofNat (raw &&& 0xfffff000)
    imm_j := i32asr (i32ofNat ((raw &&& 0x80000000) ||| u32shl (raw &&& 0xff000) 11 |||
      u32shl (raw &&& 0x100000) 2 ||| (raw &&& 0x7fe00000) >>> 9)) 11 }

/-- Component parts of an instruction of any length. The source enum has
a single variant for the 32-bit length. -/
inductive InstructionParts where
  | word (parts : InstructionWordParts)
deriving DecidableEq

/-- Determine the length of the provided raw instruction
(InstructionParts::identify_instruction_length). -/
def InstructionParts.identify_instruction_length (raw : Nat) : InstructionLength :=
  if raw &&& 0b11 ≠ 0b11 then InstructionLength.halfWord
  else if raw &&& 0b11100 ≠ 0b11100 then InstructionLength.word
  else if raw &&& 0b100000 = 0 then InstructionLength.wordAndHalf
  else if raw &&& 0b1000000 = 0 then InstructionLength.doubleWord
  else
    let len := (raw &&& 0b0111000000000000) >>> 12
    if len = 0b111 then InstructionLength.reserved
    else InstructionLength.custom (80 + 16 * len)

/-- Determine the length of the raw instruction and extract its parts
(InstructionParts::new). -/
def InstructionParts.new (raw : Nat) : Except ProcessorException InstructionParts :=
  match InstructionParts.identify_instruction_length raw with
  | InstructionLength.word => Except.ok (InstructionParts.word (InstructionWordParts.new raw))
  | _ => Except.error ProcessorException.illegalInstruction

/-- Return the opcode of this instruction (InstructionParts::opcode). -/
def InstructionParts.opcode : InstructionParts → Nat
  | InstructionParts.word parts => parts.opcode

/-- Convert to InstructionWordParts (InstructionParts::into_word). -/
def InstructionParts.into_word : InstructionParts → Except ProcessorException InstructionWordParts
  | InstructionParts.word parts => Except.ok parts

/-! ### Registers (core/src/processor/register.rs) -/

/-- A 32-bit register. The Rust source keeps trait objects in the register
file; the two implementations in the repository are the general-purpose
register and the zero register, giving this closed inductive. -/
inductive Register where
  | zero
  | gp (value : Int)
deriving DecidableEq

/-- Get the current value stored in this register. The Rust trait method
returns a Result, but both implementations in the repository always
return Ok, so the embedding is total. -/
def Register.load : Register → Int
  | Register.zero => 0
  | Register.gp v => v

/-- Store a value in this register, returning the updated register and
the value held prior to the store. The zero register discards the store
and returns 0; the Rust trait method Result never carries an error in
either implementation. -/
def Register.store : Register → Int → Register × Int
  | Register.zero, _ => (Register.zero, 0)
  | Register.gp prev, v => (Register.gp v, prev)

/-- A register file: the source uses a BTreeMap from the 5-bit index to a
boxed register, populated at indices 0..31. Decoded register indices are
always below 32, so a total function is a faithful model. -/
def RegisterFile : Type := Nat → Register

/-- Read a register, as registers.get(i).unwrap().load(). -/
def RegisterFile.read (regs : RegisterFile) (i : Nat) : Int :=
  (regs i).load

/-- Write a register in place, as registers.get_mut(i).unwrap().store(v). -/
def RegisterFile.write (regs : RegisterFile) (i : Nat) (v : Int) : RegisterFile :=
  fun j => if j = i then ((regs i).store v).1 else regs j

/-! ### Memory access specifications (core/src/mmu.rs) -/

/-- Type of value to retrieve from or store to memory. -/
inductive MemoryAccessType where
  | word
  | signedHalfWord
  | unsignedHalfWord
  | signedByte
  | unsignedByte
deriving DecidableEq

/-- Specification for loading a value from memory. -/
structure LoadSpec where
  access_type : MemoryAccessType
  addr : Nat
deriving DecidableEq

/-- Create a new LoadSpec (LoadSpec::new). -/
def LoadSpec.new (width : MemoryAccessType) (addr : Nat) : LoadSpec :=
  { access_type := width, addr := addr }

/-- Specification for storing a value to memory. -/
structure StoreSpec where
  access_type : MemoryAccessType
  addr : Nat
  value : Int
deriving DecidableEq

/-- Create a new StoreSpec (StoreSpec::new). -/
def StoreSpec.new (width : MemoryAccessType) (addr : Nat) (value : Int) : StoreSpec :=
  { access_type := width, addr := addr, value := value }

/-! ### Decoded instructions (core/src/instruction/mod.rs) -/

/-- Result of executing an instruction. -/
structure InstructionResult where
  jump : Option Nat
  store : Option StoreSpec
deriving DecidableEq

/-- The all-None InstructionResult (the Rust derived Default). -/
def InstructionResult.default : InstructionResult :=
  { jump := none, store := none }

/-- InstructionResult::set_jump. -/
def InstructionResult.set_jump (addr : Nat) : InstructionResult :=
  { jump := some addr, store := none }

/-- InstructionResult::set_store. -/
def InstructionResult.set_store (store : StoreSpec) : InstructionResult :=
  { jump := none, store := some store }

/-- A decoded instruction, mirroring the Instruction trait object: a
load-request computation (defaulting to none), an execute step which may
mutate the register file and may fail, and a display string. -/
structure Instruction where
  load : RegisterFile → Except ProcessorException (Option LoadSpec) :=
    fun _ => Except.ok none
  execute : RegisterFile → Int → RegisterFile × Except ProcessorException InstructionResult
  format : String

/-- An opcode handler, mirroring the OpcodeHandler trait: decode the
instruction parts at the given pc into an executable instruction. -/
def OpcodeHandler : Type :=
  InstructionParts → Nat → Except ProcessorException Instruction

/-! ### The hart (core/src/processor/hart.rs) -/

/-- Memory accesses required by the hart after a cycle. -/
structure MemoryAccess where
  load : Option LoadSpec
  store : Option StoreSpec

/-- A hardware thread: register file, program counter, previous program
counter, opcode handler map (the source HashMap is a partial function
from the opcode), display string of the previous instruction, and the
instruction decoded on the previous cycle. -/
structure Hart where
  registers : RegisterFile
  pc : Nat
  prev_pc : Nat
  opcodes : Nat → Option OpcodeHandler
  last_instr : Option String
  next_instr : Option (Except ProcessorException Instruction)

/-- Create a new Hart (Hart::new): register 0 is the zero register and
all other registers are general-purpose registers initialised to 0; the
opcode map starts empty. -/
def Hart.new : Hart :=
  { registers := fun i => if i = 0 then Register.zero else Register.gp 0
    pc := 0
    prev_pc := 0
    opcodes := fun _ => none
    last_instr := none
    next_instr := none }

/-- Reset the hart (Hart::reset). -/
def Hart.reset (h : Hart) : Hart :=
  { h with pc := 0, prev_pc := 0, last_instr := none, next_instr := none }

/-- Decode the provided raw instruction (Hart::decode): split into parts,
look up the opcode handler, and run it at the current pc. -/
def Hart.decode (h : Hart) (raw_instr : Nat) : Except ProcessorException Instruction :=
  match InstructionParts.new raw_instr with
  | Except.error e => Except.error e
  | Except.ok parts =>
    match h.opcodes parts.opcode with
    | none => Except.error ProcessorException.illegalInstruction
    | some handler => handler parts h.pc

/-- Tail of Hart::cycle after the execute step: determine the memory load
spec of the newly decoded instruction (against the post-execute register
file, with errors tagged with next_pc) and commit pc, prev_pc and the
pending instruction. -/
def Hart.finishCycle (h : Hart) (cur_pc next_pc : Nat)
    (next_instr : Option (Except ProcessorException Instruction))
    (store : Option StoreSpec) :
    Hart × Except (ProcessorException × Nat) MemoryAccess :=
  match next_instr with
  | some (Except.ok instr) =>
    match instr.load h.registers with
    | Except.error e => (h, Except.error (e, next_pc))
    | Except.ok load =>
      ({ h with pc := next_pc, prev_pc := cur_pc, next_instr := next_instr },
       Except.ok { load := load, store := store })
  | _ =>
    ({ h with pc := next_pc, prev_pc := cur_pc, next_instr := next_instr },
     Except.ok { load := none, store := store })

/-- Perform a single decode-execute cycle (Hart::cycle). raw_instr is the
32-bit word at address pc; mem satisfies the load requested on the
previous cycle. Decodes raw_instr for the next cycle, executes the
instruction pending from the previous cycle (if any), and on a jump
discards the fresh decoding, forcing a pipeline bubble. Errors are
returned with a program counter value and leave pc, prev_pc and the
pending instruction unchanged, exactly as the early returns in the
source do. -/
def Hart.cycle (h : Hart) (raw_instr : Nat) (mem : Int) :
    Hart × Except (ProcessorException × Nat) MemoryAccess :=
  let cur_pc := h.pc
  let next_pc := (h.pc + 4) % 4294967296
  let decoded := h.decode raw_instr
  match h.next_instr with
  | some (Except.ok instr) =>
    match instr.execute h.registers mem with
    | (regs, Except.error e) =>
      ({ h with registers := regs, last_instr := some instr.format },
       Except.error (e, cur_pc))
    | (regs, Except.ok result) =>
      match result.jump with
      | some addr =>
        Hart.finishCycle { h with registers := regs, last_instr := some instr.format }
          cur_pc addr none result.store
      | none =>
        Hart.finishCycle { h with registers := regs, last_instr := some instr.format }
          cur_pc next_pc (some decoded) result.store
  | some (Except.error e) => (h, Except.error (e, cur_pc))
  | none =>
    Hart.finishCycle { h with last_instr := none } cur_pc next_pc (some decoded) none

/-! ### Memory devices (core/src/rom.rs, core/src/ram.rs) -/

/-- Outcome of a memory-device operation: success, a returned exception,
or a Rust panic (raised by slice indexing with a reversed range). -/
inductive MemOp (α : Type) where
  | ok (val : α)
  | err (e : ProcessorException)
  | crash
deriving DecidableEq

/-- ROM device: an immutable byte buffer. Bytes are Nat values below 256. -/
structure ROM where
  contents : List Nat
deriving DecidableEq

/-- RAM device: a mutable byte buffer. -/
structure RAM where
  contents : List Nat
deriving DecidableEq

/-- Create a new RAM of the provided size, zero-filled (RAM::new). -/
def RAM.new (size : Nat) : RAM :=
  { contents := List.replicate size 0 }

/-- ROM::load_raw: bounds check against the contents length, then the
slice indexing contents[start..stop], which panics when the range is
reversed. -/
def ROM.load_raw (rom : ROM) (start stop : Nat) : MemOp (List Nat) :=
  if stop > rom.contents.length then
    MemOp.err (MemoryAccessError.toProcessorException MemoryAccessError.outOfBounds)
  else if start > stop then MemOp.crash
  else MemOp.ok ((rom.contents.drop start).take (stop - start))

/-- ROM::store_raw: always fails with ReadOnly. -/
def ROM.store_raw (_rom : ROM) (_start _stop : Nat) (_values : List Nat) : MemOp ROM :=
  MemOp.err (MemoryAccessError.toProcessorException MemoryAccessError.readOnly)

/-- RAM::load_raw: same shape as the ROM load. -/
def RAM.load_raw (ram : RAM) (start stop : Nat) : MemOp (List Nat) :=
  if stop > ram.contents.length then
    MemOp.err (MemoryAccessError.toProcessorException MemoryAccessError.outOfBounds)
  else if start > stop then MemOp.crash
  else MemOp.ok ((ram.contents.drop start).take (stop - start))

/-- RAM::store_raw: bounds check, length check of the value slice against
the Range::len of the target range (which is 0 for a reversed range), then
the mutable slice indexing, which panics when the range is reversed. -/
def RAM.store_raw (ram : RAM) (start stop : Nat) (values : List Nat) : MemOp RAM :=
  if stop > ram.contents.length then
    MemOp.err (MemoryAccessError.toProcessorException MemoryAccessError.outOfBounds)
  else if values.length ≠ stop - start then
    MemOp.err (MemoryAccessError.toProcessorException MemoryAccessError.lengthMismatch)
  else if start > stop then MemOp.crash
  else MemOp.ok { contents := ram.contents.take start ++ values ++ ram.contents.drop stop }

/-! ### The MMU (core/src/mmu.rs) -/

/-- Memory-management unit: routes the 32-bit address space to the ROM
(top bit of the start address clear) or the RAM (top bit set, offsets
masked with 0x7fffffff). -/
structure MMU where
  rom : ROM
  ram : RAM
deriving DecidableEq

/-- MMU::load_raw: route the byte range by the top bit of the start. -/
def MMU.load_raw (m : MMU) (start stop : Nat) : MemOp (List Nat) :=
  if start &&& 0x80000000 = 0 then m.rom.load_raw start stop
  else m.ram.load_raw (start &&& 0x7fffffff) (stop &&& 0x7fffffff)

/-- MMU::store_raw: route the byte range by the top bit of the start. -/
def MMU.store_raw (m : MMU) (start stop : Nat) (values : List Nat) : MemOp MMU :=
  if start &&& 0x80000000 = 0 then
    match m.rom.store_raw start stop values with
    | MemOp.ok rom => MemOp.ok { m with rom := rom }
    | MemOp.err e => MemOp.err e
    | MemOp.crash => MemOp.crash
  else
    match m.ram.store_raw (start &&& 0x7fffffff) (stop &&& 0x7fffffff) values with
    | MemOp.ok ram => MemOp.ok { m with ram := ram }
    | MemOp.err e => MemOp.err e
    | MemOp.crash => MemOp.crash

/-- Value of a little-endian byte sequence. -/
def leValue : List Nat → Nat
  | [] => 0
  | b :: rest => b + 256 * leValue rest

/-- MMU::load_word: four bytes, little endian, as an i32. The raw load
returns exactly the requested number of bytes in the ok case, so the
try_into on the slice cannot fail. -/
def MMU.load_word (m : MMU) (addr : Nat) : MemOp Int :=
  match m.load_raw addr (addr + 4) with
  | MemOp.ok bytes => MemOp.ok (i32ofNat (leValue bytes))
  | MemOp.err e => MemOp.err e
  | MemOp.crash => MemOp.crash

/-- MMU::load_unsigned_halfword: two bytes, little endian, as a u32. -/
def MMU.load_unsigned_halfword (m : MMU) (addr : Nat) : MemOp Nat :=
  match m.load_raw addr (addr + 2) with
  | MemOp.ok bytes => MemOp.ok (leValue bytes)
  | MemOp.err e => MemOp.err e
  | MemOp.crash => MemOp.crash

/-- MMU::load_signed_halfword: the unsigned halfword cast to i32, shifted
left 16 then arithmetically right 16. -/
def MMU.load_signed_halfword (m : MMU) (addr : Nat) : MemOp Int :=
  match m.load_unsigned_halfword addr with
  | MemOp.ok v => MemOp.ok (i32asr (i32wrap (i32ofNat v * 65536)) 16)
  | MemOp.err e => MemOp.err e
  | MemOp.crash => MemOp.crash

/-- MMU::load_unsigned_byte: one byte as a u32. -/
def MMU.load_unsigned_byte (m : MMU) (addr : Nat) : MemOp Nat :=
  match m.load_raw addr (addr + 1) with
  | MemOp.ok bytes => MemOp.ok (leValue bytes)
  | MemOp.err e => MemOp.err e
  | MemOp.crash => MemOp.crash

/-- MMU::load_signed_byte: the unsigned byte cast to i32, shifted left 24
then arithmetically right 24. -/
def MMU.load_signed_byte (m : MMU) (addr : Nat) : MemOp Int :=
  match m.load_unsigned_byte addr with
  | MemOp.ok v => MemOp.ok (i32asr (i32wrap (i32ofNat v * 16777216)) 24)
  | MemOp.err e => MemOp.err e
  | MemOp.crash => MemOp.crash

/-- MMU::load: dispatch on the access type of the LoadSpec. -/
def MMU.load (m : MMU) (load : LoadSpec) : MemOp Int :=
  match load.access_type with
  | MemoryAccessType.word => m.load_word load.addr
  | MemoryAccessType.signedHalfWord => m.load_signed_halfword load.addr
  | MemoryAccessType.unsignedHalfWord =>
    match m.load_unsigned_halfword load.addr with
    | MemOp.ok v => MemOp.ok (i32ofNat v)
    | MemOp.err e => MemOp.err e
    | MemOp.crash => MemOp.crash
  | MemoryAccessType.signedByte => m.load_signed_byte load.addr
  | MemoryAccessType.unsignedByte =>
    match m.load_unsigned_byte load.addr with
    | MemOp.ok v => MemOp.ok (i32ofNat v)
    | MemOp.err e => MemOp.err e
    | MemOp.crash => MemOp.crash

/-- Little-endian bytes of the low (8 * count) bits of a u32 value. -/
def leBytes (count value : Nat) : List Nat :=
  match count with
  | 0 => []
  | n + 1 => value % 256 :: leBytes n (value / 256)

/-- MMU::store_word: the four little-endian bytes of the value. -/
def MMU.store_word (m : MMU) (addr : Nat) (value : Int) : MemOp MMU :=
  m.store_raw addr (addr + 4) (leBytes 4 (u32ofInt value))

/-- MMU::store_halfword: the value as u16, two little-endian bytes. -/
def MMU.store_halfword (m : MMU) (addr : Nat) (value : Int) : MemOp MMU :=
  m.store_raw addr (addr + 2) (leBytes 2 (u32ofInt value % 65536))

/-- MMU::store_byte: the value as u8, one byte. -/
def MMU.store_byte (m : MMU) (addr : Nat) (value : Int) : MemOp MMU :=
  m.store_raw addr (addr + 1) (leBytes 1 (u32ofInt value % 256))

/-- MMU::store: dispatch on the access type of the StoreSpec. As in the
source, both halfword widths route to the halfword helper and both byte
widths also route to the halfword helper. -/
def MMU.store (m : MMU) (store : StoreSpec) : MemOp MMU :=
  match store.access_type with
  | MemoryAccessType.word => m.store_word store.addr store.value
  | MemoryAccessType.signedHalfWord => m.store_halfword store.addr store.value
  | MemoryAccessType.unsignedHalfWord => m.store_halfword store.addr store.value
  | MemoryAccessType.signedByte => m.store_halfword store.addr store.value
  | MemoryAccessType.unsignedByte => m.store_halfword store.addr store.value

/-! ### The processor (core/src/processor/mod.rs) -/

/-- Result of a processor cycle: success, an exception tagged with a
program counter, or a Rust panic propagated from a memory device. -/
inductive CycleResult where
  | ok
  | exception (e : ProcessorException) (pc : Nat)
  | crash
deriving DecidableEq

/-- A RISC-V processor: one hart, the MMU, the memory load request
deferred from the previous cycle, and the previous program counter. -/
structure Processor where
  hart : Hart
  mmu : MMU
  load : Option LoadSpec
  prev_pc : Nat

/-- Reset the processor (Processor::reset). -/
def Processor.reset (p : Processor) : Processor :=
  { p with hart := p.hart.reset, load := none, prev_pc := 0 }

/-- Execute a processor cycle (Processor::cycle): fetch the word at the
hart pc (errors tagged with the current pc), satisfy the deferred load
(errors tagged with the previous pc), run the hart cycle, apply the
requested store (errors tagged with the previous pc), then remember the
current pc and the new load request. -/
def Processor.cycle (p : Processor) : Processor × CycleResult :=
  let prev_pc := p.prev_pc
  let cur_pc := p.hart.pc
  match p.mmu.load_word cur_pc with
  | MemOp.crash => (p, CycleResult.crash)
  | MemOp.err e => (p, CycleResult.exception e cur_pc)
  | MemOp.ok instrValue =>
    let instr := u32ofInt instrValue
    let memResult : MemOp Int :=
      match p.load with
      | some access => p.mmu.load access
      | none => MemOp.ok 0
    match memResult with
    | MemOp.crash => (p, CycleResult.crash)
    | MemOp.err e => (p, CycleResult.exception e prev_pc)
    | MemOp.ok mem =>
      match p.hart.cycle instr mem with
      | (hart, Except.error (e, pc)) => ({ p with hart := hart }, CycleResult.exception e pc)
      | (hart, Except.ok result) =>
        match result.store with
        | some store =>
          match p.mmu.store store with
          | MemOp.crash => ({ p with hart := hart }, CycleResult.crash)
          | MemOp.err e => ({ p with hart := hart }, CycleResult.exception e prev_pc)
          | MemOp.ok mmu =>
            ({ p with hart := hart, mmu := mmu, prev_pc := cur_pc, load := result.load },
             CycleResult.ok)
        | none =>
          ({ p with hart := hart, prev_pc := cur_pc, load := result.load }, CycleResult.ok)

/-- Run up to the given number of processor cycles, stopping at the first
cycle that does not return ok, as the execution driver loop does. -/
def Processor.run : Nat → Processor → Processor × CycleResult
  | 0, p => (p, CycleResult.ok)
  | n + 1, p =>
    match p.cycle with
    | (p2, CycleResult.ok) => Processor.run n p2
    | (p2, r) => (p2, r)

/-! ### RV32I instructions (isa/src/rv32i)

Display strings (Instruction::format) are abstracted to the bare
mnemonic: no specification claim observes the text, only whether a
previous-instruction string is present. -/

/-- LUI instruction (isa/src/rv32i/lui.rs). -/
structure LuiInstruction where
  imm : Int
  dest : Nat
deriving DecidableEq

/-- LuiInstruction::new. -/
def LuiInstruction.new (instruction : InstructionWordParts) : LuiInstruction :=
  { imm := instruction.imm_u, dest := instruction.rd }

/-- LUI execute: rd receives imm_u. -/
def LuiInstruction.execute (s : LuiInstruction) (registers : RegisterFile) (_mem : Int) :
    RegisterFile × Except ProcessorException InstructionResult :=
  (registers.write s.dest s.imm, Except.ok InstructionResult.default)

/-- Package a LUI instruction as a trait object. -/
def LuiInstruction.toInstruction (s : LuiInstruction) : Instruction :=
  { execute := s.execute, format := "lui" }

/-- LUI opcode handler (LuiHandler). -/
def LuiHandler : OpcodeHandler := fun instruction _pc =>
  match instruction.into_word with
  | Except.error e => Except.error e
  | Except.ok instruction => Except.ok (LuiInstruction.new instruction).toInstruction

/-- AUIPC instruction (isa/src/rv32i/auipc.rs). -/
structure AUIPCInstruction where
  pc : Nat
  imm : Int
  dest : Nat
deriving DecidableEq

/-- AUIPCInstruction::new. -/
def AUIPCInstruction.new (instruction : InstructionWordParts) (pc : Nat) : AUIPCInstruction :=
  { pc := pc, imm := instruction.imm_u, dest := instruction.rd }

/-- AUIPC execute: rd receives pc (as i32) wrapping-plus imm_u. -/
def AUIPCInstruction.execute (s : AUIPCInstruction) (registers : RegisterFile) (_mem : Int) :
    RegisterFile × Except ProcessorException InstructionResult :=
  (registers.write s.dest (i32wrap (i32ofNat s.pc + s.imm)), Except.ok InstructionResult.default)

/-- Package an AUIPC instruction as a trait object. -/
def AUIPCInstruction.toInstruction (s : AUIPCInstruction) : Instruction :=
  { execute := s.execute, format := "auipc" }

/-- AUIPC opcode handler (AUIPCHandler). -/
def AUIPCHandler : OpcodeHandler := fun instruction pc =>
  match instruction.into_word with
  | Except.error e => Except.error e
  | Except.ok instruction => Except.ok (AUIPCInstruction.new instruction pc).toInstruction

/-- JAL instruction (isa/src/rv32i/jal.rs). -/
structure JalInstruction where
  pc : Nat
  offset : Int
  dest : Nat
deriving DecidableEq

/-- JalInstruction::new. -/
def JalInstruction.new (instruction : InstructionWordParts) (pc : Nat) : JalInstruction :=
  { pc := pc, offset := instruction.imm_j, dest := instruction.rd }

/-- JAL execute: target pc wrapping-plus imm_j, misalignment check, rd
receives pc + 4, then jump. -/
def JalInstruction.execute (s : JalInstruction) (registers : RegisterFile) (_mem : Int) :
    RegisterFile × Except ProcessorException InstructionResult :=
  let jump_addr := (s.pc + u32ofInt s.offset) % 4294967296
  if jump_addr % 4 ≠ 0 then
    (registers, Except.error ProcessorException.instructionAddressMisaligned)
  else
    let ret_addr := (s.pc + 4) % 4294967296
    (registers.write s.dest (i32ofNat ret_addr),
     Except.ok (InstructionResult.set_jump jump_addr))

/-- Package a JAL instruction as a trait object. -/
def JalInstruction.toInstruction (s : JalInstruction) : Instruction :=
  { execute := s.execute, format := "jal" }

/-- JAL opcode handler (JalHandler). -/
def JalHandler : OpcodeHandler := fun instruction pc =>
  match instruction.into_word with
  | Except.error e => Except.error e
  | Except.ok instruction => Except.ok (JalInstruction.new instruction pc).toInstruction

/-- JALR instruction (isa/src/rv32i/jalr.rs). -/
structure JalrInstruction where
  pc : Nat
  base : Nat
  offset : Int
  dest : Nat
deriving DecidableEq

/-- JalrInstruction::new. -/
def JalrInstruction.new (instruction : InstructionWordParts) (pc : Nat) : JalrInstruction :=
  { pc := pc, base := instruction.rs1, offset := instruction.imm_i, dest := instruction.rd }

/-- JALR execute: target is rs1 (as u32) wrapping-plus imm_i with the low
bit cleared, misalignment check, rd receives pc + 4, then jump. -/
def JalrInstruction.execute (s : JalrInstruction) (registers : RegisterFile) (_mem : Int) :
    RegisterFile × Except ProcessorException InstructionResult :=
  let base := u32ofInt (registers.read s.base)
  let jump_addr := ((base + u32ofInt s.offset) % 4294967296) &&& 0xfffffffe
  if jump_addr % 4 ≠ 0 then
    (registers, Except.error ProcessorException.instructionAddressMisaligned)
  else
    let ret_addr := (s.pc + 4) % 4294967296
    (registers.write s.dest (i32ofNat ret_addr),
     Except.ok (InstructionResult.set_jump jump_addr))

/-- Package a JALR instruction as a trait object. -/
def JalrInstruction.toInstruction (s : JalrInstruction) : Instruction :=
  { execute := s.execute, format := "jalr" }

/-- JALR opcode handler (JalrHandler). -/
def JalrHandler : OpcodeHandler := fun instruction pc =>
  match instruction.into_word with
  | Except.error e => Except.error e
  | Except.ok instruction => Except.ok (JalrInstruction.new instruction pc).toInstruction

/-- Condition determining whether a branch should occur
(isa/src/rv32i/branch.rs). -/
inductive BranchCondition where
  | equal
  | notEqual
  | less
  | greaterOrEqual
  | lessUnsigned
  | greaterOrEqualUnsigned
deriving DecidableEq

/-- The condition comparison from BranchInstruction::execute, written as
a named function on the two loaded source values. -/
def BranchCondition.holds (c : BranchCondition) (src1 src2 : Int) : Bool :=
  match c with
  | BranchCondition.equal => src1 = src2
  | BranchCondition.notEqual => src1 ≠ src2
  | BranchCondition.less => src1 < src2
  | BranchCondition.greaterOrEqual => src1 ≥ src2
  | BranchCondition.lessUnsigned => u32ofInt src1 < u32ofInt src2
  | BranchCondition.greaterOrEqualUnsigned => u32ofInt src1 ≥ u32ofInt src2

/-- BRANCH instruction (isa/src/rv32i/branch.rs). -/
structure BranchInstruction where
  pc : Nat
  src1 : Nat
  src2 : Nat
  offset : Int
  condition : BranchCondition
deriving DecidableEq

/-- BranchInstruction::new: decode the condition from funct3. -/
def BranchInstruction.new (instruction : InstructionWordParts) (pc : Nat) :
    Except ProcessorException BranchInstruction :=
  let condition : Except ProcessorException BranchCondition :=
    match instruction.funct3 &&& 0b111 with
    | 0b000 => Except.ok BranchCondition.equal
    | 0b001 => Except.ok BranchCondition.notEqual
    | 0b100 => Except.ok BranchCondition.less
    | 0b101 => Except.ok BranchCondition.greaterOrEqual
    | 0b110 => Except.ok BranchCondition.lessUnsigned
    | 0b111 => Except.ok BranchCondition.greaterOrEqualUnsigned
    | _ => Except.error ProcessorException.illegalInstruction
  match condition with
  | Except.error e => Except.error e
  | Except.ok condition =>
    Except.ok { pc := pc, src1 := instruction.rs1, src2 := instruction.rs2,
                offset := instruction.imm_b, condition := condition }

/-- BRANCH execute: as in the source, the misalignment check on the
target pc wrapping-plus imm_b runs before the condition is evaluated. -/
def BranchInstruction.execute (s : BranchInstruction) (registers : RegisterFile) (_mem : Int) :
    RegisterFile × Except ProcessorException InstructionResult :=
  let src1 := registers.read s.src1
  let src2 := registers.read s.src2
  let jump_addr := (s.pc + u32ofInt s.offset) % 4294967296
  if jump_addr % 4 ≠ 0 then
    (registers, Except.error ProcessorException.instructionAddressMisaligned)
  else if BranchCondition.holds s.condition src1 src2 then
    (registers, Except.ok (InstructionResult.set_jump jump_addr))
  else
    (registers, Except.ok InstructionResult.default)

/-- Package a BRANCH instruction as a trait object. -/
def BranchInstruction.toInstruction (s : BranchInstruction) : Instruction :=
  { execute := s.execute, format := "branch" }

/-- BRANCH opcode handler (BranchHandler). -/
def BranchHandler : OpcodeHandler := fun instruction pc =>
  match instruction.into_word with
  | Except.error e => Except.error e
  | Except.ok instruction =>
    match BranchInstruction.new instruction pc with
    | Except.error e => Except.error e
    | Except.ok s => Except.ok s.toInstruction

/-- LOAD instruction (isa/src/rv32i/load.rs). -/
structure LoadInstruction where
  base : Nat
  offset : Int
  dest : Nat
  width : MemoryAccessType
deriving DecidableEq

/-- LoadInstruction::new: decode the access width from funct3. -/
def LoadInstruction.new (instruction : InstructionWordParts) :
    Except ProcessorException LoadInstruction :=
  let width : Except ProcessorException MemoryAccessType :=
    match instruction.funct3 with
    | 0b000 => Except.ok MemoryAccessType.signedByte
    | 0b001 => Except.ok MemoryAccessType.signedHalfWord
    | 0b010 => Except.ok MemoryAccessType.word
    | 0b100 => Except.ok MemoryAccessType.unsignedByte
    | 0b101 => Except.ok MemoryAccessType.unsignedHalfWord
    | _ => Except.error ProcessorException.illegalInstruction
  match width with
  | Except.error e => Except.error e
  | Except.ok width =>
    Except.ok { base := instruction.rs1, offset := instruction.imm_i,
                dest := instruction.rd, width := width }

/-- LOAD load-request: announce a load at rs1 wrapping-plus imm_i (the
sum cast to usize) with the decoded width. -/
def LoadInstruction.loadRequest (s : LoadInstruction) (registers : RegisterFile) :
    Except ProcessorException (Option LoadSpec) :=
  let base := registers.read s.base
  let addr := usizeOfI32 (i32wrap (base + s.offset))
  Except.ok (some (LoadSpec.new s.width addr))

/-- LOAD execute: rd receives the memory value supplied by the
processor. -/
def LoadInstruction.execute (s : LoadInstruction) (registers : RegisterFile) (mem : Int) :
    RegisterFile × Except ProcessorException InstructionResult :=
  (registers.write s.dest mem, Except.ok InstructionResult.default)

/-- Package a LOAD instruction as a trait object. -/
def LoadInstruction.toInstruction (s : LoadInstruction) : Instruction :=
  { load := s.loadRequest, execute := s.execute, format := "load" }

/-- LOAD opcode handler (LoadHandler). -/
def LoadHandler : OpcodeHandler := fun instruction _pc =>
  match instruction.into_word with
  | Except.error e => Except.error e
  | Except.ok instruction =>
    match LoadInstruction.new instruction with
    | Except.error e => Except.error e
    | Except.ok s => Except.ok s.toInstruction

/-- STORE instruction (isa/src/rv32i/store.rs). -/
structure StoreInstruction where
  src : Nat
  base : Nat
  offset : Int
  width : MemoryAccessType
deriving DecidableEq

/-- StoreInstruction::new: decode the access width from funct3. -/
def StoreInstruction.new (instruction : InstructionWordParts) :
    Except ProcessorException StoreInstruction :=
  let width : Except ProcessorException MemoryAccessType :=
    match instruction.funct3 with
    | 0b000 => Except.ok MemoryAccessType.signedByte
    | 0b001 => Except.ok MemoryAccessType.signedHalfWord
    | 0b010 => Except.ok MemoryAccessType.word
    | _ => Except.error ProcessorException.illegalInstruction
  match width with
  | Except.error e => Except.error e
  | Except.ok width =>
    Except.ok { src := instruction.rs2, base := instruction.rs1,
                offset := instruction.imm_s, width := width }

/-- STORE execute: request a store of rs2 at rs1 wrapping-plus imm_s. -/
def StoreInstruction.execute (s : StoreInstruction) (registers : RegisterFile) (_mem : Int) :
    RegisterFile × Except ProcessorException InstructionResult :=
  let src := registers.read s.src
  let base := registers.read s.base
  let addr := usizeOfI32 (i32wrap (base + s.offset))
  (registers, Except.ok (InstructionResult.set_store (StoreSpec.new s.width addr src)))

/-- Package a STORE instruction as a trait object. -/
def StoreInstruction.toInstruction (s : StoreInstruction) : Instruction :=
  { execute := s.execute, format := "store" }

/-- STORE opcode handler (StoreHandler). -/
def StoreHandler : OpcodeHandler := fun instruction _pc =>
  match instruction.into_word with
  | Except.error e => Except.error e
  | Except.ok instruction =>
    match StoreInstruction.new instruction with
    | Except.error e => Except.error e
    | Except.ok s => Except.ok s.toInstruction

/-- ECALL execute: surfaces EnvironmentCall (isa/src/rv32i/system.rs). -/
def ECallInstruction.execute (registers : RegisterFile) (_mem : Int) :
    RegisterFile × Except ProcessorException InstructionResult :=
  (registers, Except.error ProcessorException.environmentCall)

/-- The ECALL instruction as a trait object. -/
def ECallInstruction.toInstruction : Instruction :=
  { execute := ECallInstruction.execute, format := "ecall" }

/-- ECallInstruction::new: rs1, funct3 and rd must all be zero. -/
def ECallInstruction.new (instruction : InstructionWordParts) :
    Except ProcessorException Instruction :=
  if instruction.rs1 ≠ 0 ∨ instruction.funct3 ≠ 0 ∨ instruction.rd ≠ 0 then
    Except.error ProcessorException.illegalInstruction
  else Except.ok ECallInstruction.toInstruction

/-- EBREAK execute: surfaces EnvironmentBreak. -/
def EBreakInstruction.execute (registers : RegisterFile) (_mem : Int) :
    RegisterFile × Except ProcessorException InstructionResult :=
  (registers, Except.error ProcessorException.environmentBreak)

/-- The EBREAK instruction as a trait object. -/
def EBreakInstruction.toInstruction : Instruction :=
  { execute := EBreakInstruction.execute, format := "ebreak" }

/-- EBreakInstruction::new: rs1, funct3 and rd must all be zero. -/
def EBreakInstruction.new (instruction : InstructionWordParts) :
    Except ProcessorException Instruction :=
  if instruction.rs1 ≠ 0 ∨ instruction.funct3 ≠ 0 ∨ instruction.rd ≠ 0 then
    Except.error ProcessorException.illegalInstruction
  else Except.ok EBreakInstruction.toInstruction

/-- SYSTEM opcode handler (SystemHandler): dispatch on imm_i. -/
def SystemHandler : OpcodeHandler := fun instruction _pc =>
  match instruction.into_word with
  | Except.error e => Except.error e
  | Except.ok instruction =>
    if instruction.imm_i = 0 then ECallInstruction.new instruction
    else if instruction.imm_i = 1 then EBreakInstruction.new instruction
    else Except.error ProcessorException.illegalInstruction

/-- Mode of a fence (isa/src/rv32i/fence.rs). -/
inductive FenceMode where
  | normal
  | tso
deriving DecidableEq

/-- FENCE instruction. -/
structure FenceInstruction where
  mode : FenceMode
  pi : Bool
  po : Bool
  pr : Bool
  pw : Bool
  si : Bool
  so : Bool
  sr : Bool
  sw : Bool
deriving DecidableEq

/-- FenceInstruction::new: validate the 4-bit mode field and record the
predecessor and successor flag bits. -/
def FenceInstruction.new (instruction : InstructionWordParts) :
    Except ProcessorException FenceInstruction :=
  let mode : Except ProcessorException FenceMode :=
    match (instruction.raw >>> 28) &&& 0b1111 with
    | 0b0000 => Except.ok FenceMode.normal
    | 0b1000 => Except.ok FenceMode.tso
    | _ => Except.error ProcessorException.illegalInstruction
  match mode with
  | Except.error e => Except.error e
  | Except.ok mode =>
    Except.ok { mode := mode,
                pi := instruction.raw &&& 0x08000000 ≠ 0,
                po := instruction.raw &&& 0x04000000 ≠ 0,
                pr := instruction.raw &&& 0x02000000 ≠ 0,
                pw := instruction.raw &&& 0x01000000 ≠ 0,
                si := instruction.raw &&& 0x00800000 ≠ 0,
                so := instruction.raw &&& 0x00400000 ≠ 0,
                sr := instruction.raw &&& 0x00200000 ≠ 0,
                sw := instruction.raw &&& 0x00100000 ≠ 0 }

/-- FENCE execute: a no-op. -/
def FenceInstruction.execute (_s : FenceInstruction) (registers : RegisterFile) (_mem : Int) :
    RegisterFile × Except ProcessorException InstructionResult :=
  (registers, Except.ok InstructionResult.default)

/-- Package a FENCE instruction as a trait object. -/
def FenceInstruction.toInstruction (s : FenceInstruction) : Instruction :=
  { execute := s.execute, format := "fence" }

/-- FENCE opcode handler (FenceHandler). -/
def FenceHandler : OpcodeHandler := fun instruction _pc =>
  match instruction.into_word with
  | Except.error e => Except.error e
  | Except.ok instruction =>
    match FenceInstruction.new instruction with
    | Except.error e => Except.error e
    | Except.ok s => Except.ok s.toInstruction

/-- Behaviour of a right-shift instruction (isa/src/rv32i/mod.rs). -/
inductive RightShiftBehaviour where
  | logical
  | arithmetic
deriving DecidableEq

/-- ADDI instruction (isa/src/rv32i/op_imm/add.rs). -/
structure AddIInstruction where
  src : Nat
  imm : Int
  dest : Nat
deriving DecidableEq

/-- AddIInstruction::new. -/
def AddIInstruction.new (instruction : InstructionWordParts) : AddIInstruction :=
  { src := instruction.rs1, imm := instruction.imm_i, dest := instruction.rd }

/-- ADDI execute: rd receives rs1 wrapping-plus imm_i. -/
def AddIInstruction.execute (s : AddIInstruction) (registers : RegisterFile) (_mem : Int) :
    RegisterFile × Except ProcessorException InstructionResult :=
  let src := registers.read s.src
  (registers.write s.dest (i32wrap (src + s.imm)), Except.ok InstructionResult.default)

/-- Package an ADDI instruction as a trait object. -/
def AddIInstruction.toInstruction (s : AddIInstruction) : Instruction :=
  { execute := s.execute, format := "addi" }

/-- SLTI instruction (isa/src/rv32i/op_imm/compare.rs). -/
structure SltIInstruction where
  src : Nat
  imm : Int
  dest : Nat
deriving DecidableEq

/-- SltIInstruction::new. -/
def SltIInstruction.new (instruction : InstructionWordParts) : SltIInstruction :=
  { src := instruction.rs1, imm := instruction.imm_i, dest := instruction.rd }

/-- SLTI execute: rd receives 1 when rs1 is below imm_i as signed values. -/
def SltIInstruction.execute (s : SltIInstruction) (registers : RegisterFile) (_mem : Int) :
    RegisterFile × Except ProcessorException InstructionResult :=
  let src := registers.read s.src
  (registers.write s.dest (if src < s.imm then 1 else 0), Except.ok InstructionResult.default)

/-- Package an SLTI instruction as a trait object. -/
def SltIInstruction.toInstruction (s : SltIInstruction) : Instruction :=
  { execute := s.execute, format := "slti" }

/-- SLTIU instruction (isa/src/rv32i/op_imm/compare.rs). -/
structure SltIUInstruction where
  src : Nat
  imm : Int
  dest : Nat
deriving DecidableEq

/-- SltIUInstruction::new. -/
def SltIUInstruction.new (instruction : InstructionWordParts) : SltIUInstruction :=
  { src := instruction.rs1, imm := instruction.imm_i, dest := instruction.rd }

/-- SLTIU execute: the comparison is on the u32 bit patterns. -/
def SltIUInstruction.execute (s : SltIUInstruction) (registers : RegisterFile) (_mem : Int) :
    RegisterFile × Except ProcessorException InstructionResult :=
  let src := u32ofInt (registers.read s.src)
  (registers.write s.dest (if src < u32ofInt s.imm then 1 else 0),
   Except.ok InstructionResult.default)

/-- Package an SLTIU instruction as a trait object. -/
def SltIUInstruction.toInstruction (s : SltIUInstruction) : Instruction :=
  { execute := s.execute, format := "sltiu" }

/-- ANDI instruction (isa/src/rv32i/op_imm/logic.rs). -/
structure AndIInstruction where
  src : Nat
  imm : Int
  dest : Nat
deriving DecidableEq

/-- AndIInstruction::new. -/
def AndIInstruction.new (instruction : InstructionWordParts) : AndIInstruction :=
  { src := instruction.rs1, imm := instruction.imm_i, dest := instruction.rd }

/-- ANDI execute. -/
def AndIInstruction.execute (s : AndIInstruction) (registers : RegisterFile) (_mem : Int) :
    RegisterFile × Except ProcessorException InstructionResult :=
  let src := registers.read s.src
  (registers.write s.dest (i32land src s.imm), Except.ok InstructionResult.default)

/-- Package an ANDI instruction as a trait object. -/
def AndIInstruction.toInstruction (s : AndIInstruction) : Instruction :=
  { execute := s.execute, format := "andi" }

/-- ORI instruction (isa/src/rv32i/op_imm/logic.rs). -/
structure OrIInstruction where
  src : Nat
  imm : Int
  dest : Nat
deriving DecidableEq

/-- OrIInstruction::new. -/
def OrIInstruction.new (instruction : InstructionWordParts) : OrIInstruction :=
  { src := instruction.rs1, imm := instruction.imm_i, dest := instruction.rd }

/-- ORI execute. -/
def OrIInstruction.execute (s : OrIInstruction) (registers : RegisterFile) (_mem : Int) :
    RegisterFile × Except ProcessorException InstructionResult :=
  let src := registers.read s.src
  (registers.write s.dest (i32lor src s.imm), Except.ok InstructionResult.default)

/-- Package an ORI instruction as a trait object. -/
def OrIInstruction.toInstruction (s : OrIInstruction) : Instruction :=
  { execute := s.execute, format := "ori" }

/-- XORI instruction (isa/src/rv32i/op_imm/logic.rs). -/
structure XorIInstruction where
  src : Nat
  imm : Int
  dest : Nat
deriving DecidableEq

/-- XorIInstruction::new. -/
def XorIInstruction.new (instruction : InstructionWordParts) : XorIInstruction :=
  { src := instruction.rs1, imm := instruction.imm_i, dest := instruction.rd }

/-- XORI execute. -/
def XorIInstruction.execute (s : XorIInstruction) (registers : RegisterFile) (_mem : Int) :
    RegisterFile × Except ProcessorException InstructionResult :=
  let src := registers.read s.src
  (registers.write s.dest (i32xor src s.imm), Except.ok InstructionResult.default)

/-- Package a XORI instruction as a trait object. -/
def XorIInstruction.toInstruction (s : XorIInstruction) : Instruction :=
  { execute := s.execute, format := "xori" }

/-- SLLI instruction (isa/src/rv32i/op_imm/shift.rs): the shift amount is
the low five bits of imm_i, taken at decode time. -/
structure SllIInstruction where
  src : Nat
  shift : Nat
  dest : Nat
deriving DecidableEq

/-- SllIInstruction::new. -/
def SllIInstruction.new (instruction : InstructionWordParts) : SllIInstruction :=
  { src := instruction.rs1, shift := (i32land instruction.imm_i 0b11111).toNat,
    dest := instruction.rd }

/-- SLLI execute: wrapping left shift. -/
def SllIInstruction.execute (s : SllIInstruction) (registers : RegisterFile) (_mem : Int) :
    RegisterFile × Except ProcessorException InstructionResult :=
  let src := registers.read s.src
  (registers.write s.dest (i32shlWrap src s.shift), Except.ok InstructionResult.default)

/-- Package an SLLI instruction as a trait object. -/
def SllIInstruction.toInstruction (s : SllIInstruction) : Instruction :=
  { execute := s.execute, format := "slli" }

/-- SRLI or SRAI instruction (isa/src/rv32i/op_imm/shift.rs). -/
structure SrIInstruction where
  src : Nat
  behaviour : RightShiftBehaviour
  imm : Nat
  dest : Nat
deriving DecidableEq

/-- SrIInstruction::new: the behaviour is selected by matching imm_i
masked with 0b111111100000 against the literals 0b0000000 and 0b0100000,
exactly as the source match arms are written; any other masked value is
an illegal instruction. The shift amount is the low five bits of imm_i. -/
def SrIInstruction.new (instruction : InstructionWordParts) :
    Except ProcessorException SrIInstruction :=
  let masked := i32land instruction.imm_i 0b111111100000
  let behaviour : Except ProcessorException RightShiftBehaviour :=
    if masked = 0b0000000 then Except.ok RightShiftBehaviour.logical
    else if masked = 0b0100000 then Except.ok RightShiftBehaviour.arithmetic
    else Except.error ProcessorException.illegalInstruction
  match behaviour with
  | Except.error e => Except.error e
  | Except.ok behaviour =>
    Except.ok { src := instruction.rs1, behaviour := behaviour,
                imm := (i32land instruction.imm_i 0b11111).toNat, dest := instruction.rd }

/-- SRLI or SRAI execute: logical shifts work on the u32 bit pattern,
arithmetic shifts on the i32 value. -/
def SrIInstruction.execute (s : SrIInstruction) (registers : RegisterFile) (_mem : Int) :
    RegisterFile × Except ProcessorException InstructionResult :=
  let src := registers.read s.src
  let result :=
    match s.behaviour with
    | RightShiftBehaviour.logical => i32ofNat (u32shrWrap (u32ofInt src) s.imm)
    | RightShiftBehaviour.arithmetic => i32shrWrap src s.imm
  (registers.write s.dest result, Except.ok InstructionResult.default)

/-- Package an SRLI or SRAI instruction as a trait object. -/
def SrIInstruction.toInstruction (s : SrIInstruction) : Instruction :=
  { execute := s.execute, format := "sri" }

/-- OP-IMM opcode handler (OpImmHandler, isa/src/rv32i/op_imm/mod.rs):
dispatch on the low three bits of funct3. The wildcard arm mirrors the
unreachable arm of the source match. -/
def OpImmHandler : OpcodeHandler := fun instruction _pc =>
  match instruction.into_word with
  | Except.error e => Except.error e
  | Except.ok instruction =>
    match instruction.funct3 &&& 0b111 with
    | 0b000 => Except.ok (AddIInstruction.new instruction).toInstruction
    | 0b001 => Except.ok (SllIInstruction.new instruction).toInstruction
    | 0b010 => Except.ok (SltIInstruction.new instruction).toInstruction
    | 0b011 => Except.ok (SltIUInstruction.new instruction).toInstruction
    | 0b100 => Except.ok (XorIInstruction.new instruction).toInstruction
    | 0b101 =>
      match SrIInstruction.new instruction with
      | Except.error e => Except.error e
      | Except.ok s => Except.ok s.toInstruction
    | 0b110 => Except.ok (OrIInstruction.new instruction).toInstruction
    | 0b111 => Except.ok (AndIInstruction.new instruction).toInstruction
    | _ => Except.error ProcessorException.illegalInstruction

/-- ADD or SUB operation selector (isa/src/rv32i/op/arithmetic.rs). -/
inductive Operation where
  | add
  | sub
deriving DecidableEq

/-- ADD or SUB instruction (isa/src/rv32i/op/arithmetic.rs). -/
structure ArithmeticInstruction where
  src1 : Nat
  src2 : Nat
  dest : Nat
  op : Operation
deriving DecidableEq

/-- ArithmeticInstruction::new: funct7 selects add or sub. -/
def ArithmeticInstruction.new (instruction : InstructionWordParts) :
    Except ProcessorException ArithmeticInstruction :=
  let op : Except ProcessorException Operation :=
    match instruction.funct7 with
    | 0b0000000 => Except.ok Operation.add
    | 0b0100000 => Except.ok Operation.sub
    | _ => Except.error ProcessorException.illegalInstruction
  match op with
  | Except.error e => Except.error e
  | Except.ok op =>
    Except.ok { src1 := instruction.rs1, src2 := instruction.rs2,
                dest := instruction.rd, op := op }

/-- ADD or SUB execute: wrapping arithmetic on the two sources. -/
def ArithmeticInstruction.execute (s : ArithmeticInstruction) (registers : RegisterFile)
    (_mem : Int) : RegisterFile × Except ProcessorException InstructionResult :=
  let src1 := registers.read s.src1
  let src2 := registers.read s.src2
  let result :=
    match s.op with
    | Operation.add => i32wrap (src1 + src2)
    | Operation.sub => i32wrap (src1 - src2)
  (registers.write s.dest result, Except.ok InstructionResult.default)

/-- Package an ADD or SUB instruction as a trait object. -/
def ArithmeticInstruction.toInstruction (s : ArithmeticInstruction) : Instruction :=
  { execute := s.execute, format := "arith" }

/-- SLL instruction (isa/src/rv32i/op/shift.rs). -/
structure SllInstruction where
  src1 : Nat
  src2 : Nat
  dest : Nat
deriving DecidableEq

/-- SllInstruction::new. -/
def SllInstruction.new (instruction : InstructionWordParts) : SllInstruction :=
  { src1 := instruction.rs1, src2 := instruction.rs2, dest := instruction.rd }

/-- SLL execute: wrapping left shift by the low five bits of rs2. -/
def SllInstruction.execute (s : SllInstruction) (registers : RegisterFile) (_mem : Int) :
    RegisterFile × Except ProcessorException InstructionResult :=
  let src1 := registers.read s.src1
  let src2 := registers.read s.src2
  (registers.write s.dest (i32shlWrap src1 (i32land src2 0b11111).toNat),
   Except.ok InstructionResult.default)

/-- Package an SLL instruction as a trait object. -/
def SllInstruction.toInstruction (s : SllInstruction) : Instruction :=
  { execute := s.execute, format := "sll" }

/-- SRL or SRA instruction (isa/src/rv32i/op/shift.rs). -/
structure SrInstruction where
  src1 : Nat
  src2 : Nat
  dest : Nat
  behaviour : RightShiftBehaviour
deriving DecidableEq

/-- SrInstruction::new: funct7 selects the logical or arithmetic shift. -/
def SrInstruction.new (instruction : InstructionWordParts) :
    Except ProcessorException SrInstruction :=
  let behaviour : Except ProcessorException RightShiftBehaviour :=
    match instruction.funct7 with
    | 0b0000000 => Except.ok RightShiftBehaviour.logical
    | 0b0100000 => Except.ok RightShiftBehaviour.arithmetic
    | _ => Except.error ProcessorException.illegalInstruction
  match behaviour with
  | Except.error e => Except.error e
  | Except.ok behaviour =>
    Except.ok { src1 := instruction.rs1, src2 := instruction.rs2,
                dest := instruction.rd, behaviour := behaviour }

/-- SRL or SRA execute: right shift by the low five bits of rs2. -/
def SrInstruction.execute (s : SrInstruction) (registers : RegisterFile) (_mem : Int) :
    RegisterFile × Except ProcessorException InstructionResult :=
  let src1 := registers.read s.src1
  let src2 := registers.read s.src2
  let result :=
    match s.behaviour with
    | RightShiftBehaviour.logical =>
      i32ofNat (u32shrWrap (u32ofInt src1) (i32land src2 0b11111).toNat)
    | RightShiftBehaviour.arithmetic => i32shrWrap src1 (i32land src2 0b11111).toNat
  (registers.write s.dest result, Except.ok InstructionResult.default)

/-- Package an SRL or SRA instruction as a trait object. -/
def SrInstruction.toInstruction (s : SrInstruction) : Instruction :=
  { execute := s.execute, format := "sr" }

/-- SLT instruction (isa/src/rv32i/op/compare.rs). -/
structure SltInstruction where
  src1 : Nat
  src2 : Nat
  dest : Nat
deriving DecidableEq

/-- SltInstruction::new. -/
def SltInstruction.new (instruction : InstructionWordParts) : SltInstruction :=
  { src1 := instruction.rs1, src2 := instruction.rs2, dest := instruction.rd }

/-- SLT execute: signed comparison. -/
def SltInstruction.execute (s : SltInstruction) (registers : RegisterFile) (_mem : Int) :
    RegisterFile × Except ProcessorException InstructionResult :=
  let src1 := registers.read s.src1
  let src2 := registers.read s.src2
  (registers.write s.dest (if src1 < src2 then 1 else 0), Except.ok InstructionResult.default)

/-- Package an SLT instruction as a trait object. -/
def SltInstruction.toInstruction (s : SltInstruction) : Instruction :=
  { execute := s.execute, format := "slt" }

/-- SLTU instruction (isa/src/rv32i/op/compare.rs). -/
structure SltUInstruction where
  src1 : Nat
  src2 : Nat
  dest : Nat
deriving DecidableEq

/-- SltUInstruction::new. -/
def SltUInstruction.new (instruction : InstructionWordParts) : SltUInstruction :=
  { src1 := instruction.rs1, src2 := instruction.rs2, dest := instruction.rd }

/-- SLTU execute: comparison on the u32 bit patterns. -/
def SltUInstruction.execute (s : SltUInstruction) (registers : RegisterFile) (_mem : Int) :
    RegisterFile × Except ProcessorException InstructionResult :=
  let src1 := u32ofInt (registers.read s.src1)
  let src2 := u32ofInt (registers.read s.src2)
  (registers.write s.dest (if src1 < src2 then 1 else 0), Except.ok InstructionResult.default)

/-- Package an SLTU instruction as a trait object. -/
def SltUInstruction.toInstruction (s : SltUInstruction) : Instruction :=
  { execute := s.execute, format := "sltu" }

/-- AND instruction (isa/src/rv32i/op/logic.rs). -/
structure AndInstruction where
  src1 : Nat
  src2 : Nat
  dest : Nat
deriving DecidableEq

/-- AndInstruction::new. -/
def AndInstruction.new (instruction : InstructionWordParts) : AndInstruction :=
  { src1 := instruction.rs1, src2 := instruction.rs2, dest := instruction.rd }

/-- AND execute. -/
def AndInstruction.execute (s : AndInstruction) (registers : RegisterFile) (_mem : Int) :
    RegisterFile × Except ProcessorException InstructionResult :=
  let src1 := registers.read s.src1
  let src2 := registers.read s.src2
  (registers.write s.dest (i32land src1 src2), Except.ok InstructionResult.default)

/-- Package an AND instruction as a trait object. -/
def AndInstruction.toInstruction (s : AndInstruction) : Instruction :=
  { execute := s.execute, format := "and" }

/-- OR instruction (isa/src/rv32i/op/logic.rs). -/
structure OrInstruction where
  src1 : Nat
  src2 : Nat
  dest : Nat
deriving DecidableEq

/-- OrInstruction::new. -/
def OrInstruction.new (instruction : InstructionWordParts) : OrInstruction :=
  { src1 := instruction.rs1, src2 := instruction.rs2, dest := instruction.rd }

/-- OR execute. -/
def OrInstruction.execute (s : OrInstruction) (registers : RegisterFile) (_mem : Int) :
    RegisterFile × Except ProcessorException InstructionResult :=
  let src1 := registers.read s.src1
  let src2 := registers.read s.src2
  (registers.write s.dest (i32lor src1 src2), Except.ok InstructionResult.default)

/-- Package an OR instruction as a trait object. -/
def OrInstruction.toInstruction (s : OrInstruction) : Instruction :=
  { execute := s.execute, format := "or" }

/-- XOR instruction (isa/src/rv32i/op/logic.rs). -/
structure XorInstruction where
  src1 : Nat
  src2 : Nat
  dest : Nat
deriving DecidableEq

/-- XorInstruction::new. -/
def XorInstruction.new (instruction : InstructionWordParts) : XorInstruction :=
  { src1 := instruction.rs1, src2 := instruction.rs2, dest := instruction.rd }

/-- XOR execute. -/
def XorInstruction.execute (s : XorInstruction) (registers : RegisterFile) (_mem : Int) :
    RegisterFile × Except ProcessorException InstructionResult :=
  let src1 := registers.read s.src1
  let src2 := registers.read s.src2
  (registers.write s.dest (i32xor src1 src2), Except.ok InstructionResult.default)

/-- Package a XOR instruction as a trait object. -/
def XorInstruction.toInstruction (s : XorInstruction) : Instruction :=
  { execute := s.execute, format := "xor" }

/-- OP opcode handler (OpHandler, isa/src/rv32i/op/mod.rs): dispatch on
the low three bits of funct3. -/
def OpHandler : OpcodeHandler := fun instruction _pc =>
  match instruction.into_word with
  | Except.error e => Except.error e
  | Except.ok instruction =>
    match instruction.funct3 &&& 0b111 with
    | 0b000 =>
      match ArithmeticInstruction.new instruction with
      | Except.error e => Except.error e
      | Except.ok s => Except.ok s.toInstruction
    | 0b001 => Except.ok (SllInstruction.new instruction).toInstruction
    | 0b010 => Except.ok (SltInstruction.new instruction).toInstruction
    | 0b011 => Except.ok (SltUInstruction.new instruction).toInstruction
    | 0b100 => Except.ok (XorInstruction.new instruction).toInstruction
    | 0b101 =>
      match SrInstruction.new instruction with
      | Except.error e => Except.error e
      | Except.ok s => Except.ok s.toInstruction
    | 0b110 => Except.ok (OrInstruction.new instruction).toInstruction
    | 0b111 => Except.ok (AndInstruction.new instruction).toInstruction
    | _ => Except.error ProcessorException.illegalInstruction

/-- Register the RV32I extension with a hart (RV32I::register in
isa/src/rv32i/mod.rs): insert the eleven opcode handlers. -/
def RV32I.register (h : Hart) : Hart :=
  { h with opcodes := fun op =>
      if op = 0x03 then some LoadHandler
      else if op = 0x0f then some FenceHandler
      else if op = 0x13 then some OpImmHandler
      else if op = 0x17 then some AUIPCHandler
      else if op = 0x23 then some StoreHandler
      else if op = 0x33 then some OpHandler
      else if op = 0x37 then some LuiHandler
      else if op = 0x63 then some BranchHandler
      else if op = 0x67 then some JalrHandler
      else if op = 0x6f then some JalHandler
      else if op = 0x73 then some SystemHandler
      else h.opcodes op }

/-- Construct a processor over the given MMU with the RV32I extension
registered, as Processor::new does for the run-quick configuration. -/
def Processor.new (mmu : MMU) : Processor :=
  { hart := RV32I.register Hart.new, mmu := mmu, load := none, prev_pc := 0 }

/-! ### Concrete scenarios used by the claims -/

/-- Boot image of the ADDI chain scenario: the three little-endian words
0x00500093, 0x00308113, 0x00000073 (addi x1,x0,5; addi x2,x1,3; ecall). -/
def addiChainROM : ROM :=
  { contents := [0x93, 0x00, 0x50, 0x00, 0x13, 0x81, 0x30, 0x00, 0x73, 0x00, 0x00, 0x00] }

/-- The run-quick processor for the ADDI chain scenario: the boot image
above and the default 32 KiB of RAM. -/
def addiChainProcessor : Processor :=
  Processor.new { rom := addiChainROM, ram := RAM.new 32768 }

/-- A hart with the RV32I extension registered, at the reset state. -/
def rv32iHart : Hart :=
  RV32I.register Hart.new

/-- An instruction that unconditionally jumps to address 0. -/
def jumpInstruction : Instruction :=
  { execute := fun regs _mem => (regs, Except.ok (InstructionResult.set_jump 0)),
    format := "jump" }

/-- A hart whose pending decoded instruction is an unconditional jump to
address 0; used to exhibit the pipeline bubble concretely. -/
def jumpingHart : Hart :=
  { rv32iHart with next_instr := some (Except.ok jumpInstruction) }

/-- The branch decoded from word 0x00209163 at pc 0: bne x1, x2 with
B-format immediate 2, a misaligned target. -/
def bneMisalignedBranch : BranchInstruction :=
  { pc := 0, src1 := 1, src2 := 2, offset := 2, condition := BranchCondition.notEqual }

/-- The same branch with an aligned target (offset 4). -/
def bneAlignedBranch : BranchInstruction :=
  { pc := 0, src1 := 1, src2 := 2, offset := 4, condition := BranchCondition.notEqual }

/-- A hart whose pending slot holds a decode error, as the hart leaves it
after fetching a word with an unregistered opcode; used to exhibit the
error frame condition concretely. -/
def pendingErrorHart : Hart :=
  { rv32iHart with next_instr := some (Except.error ProcessorException.illegalInstruction) }

/-- A two-byte RAM behind the MMU, for observing exactly which bytes a
store touches. -/
def twoByteMMU : MMU :=
  { rom := { contents := [] }, ram := { contents := [0xaa, 0xbb] } }

/-- An MMU with an empty boot image and eight bytes of RAM, for probing
out-of-range accesses. -/
def eightByteMMU : MMU :=
  { rom := { contents := [] }, ram := { contents := List.replicate 8 0 } }

/-- An MMU with an empty boot image and 2 GiB of RAM (the largest RAM
that fits the upper half of the 32-bit address space). -/
def twoGiBMMU : MMU :=
  { rom := { contents := [] }, ram := RAM.new 2147483648 }

/-! ### Specification-side definitions

These definitions are written from the words of the specification, not
from the source, and are compared with the source-derived definitions in
refinement-style claims. -/

/-- The value of the bit field of w starting at bit k, n bits wide. -/
def bitsField (w k n : Nat) : Nat :=
  w / 2 ^ k % 2 ^ n

/-- Sign-extension to 32 bits of an n-bit value, as an integer. -/
def signExtendSpec (n v : Nat) : Int :=
  if v < 2 ^ (n - 1) then (v : Int) else (v : Int) - 2 ^ n

/-- Spec: the 13-bit concatenation (bit 31 of w, bit 7, bits 30 to 25,
bits 11 to 8, a zero bit). -/
def specFieldsB (w : Nat) : Nat :=
  bitsField w 31 1 * 2 ^ 12 + bitsField w 7 1 * 2 ^ 11 +
    bitsField w 25 6 * 2 ^ 5 + bitsField w 8 4 * 2

/-- Spec: imm_b is the sign-extension of the 13-bit B-format immediate. -/
def specImmB (w : Nat) : Int :=
  signExtendSpec 13 (specFieldsB w)

/-- Spec: the 21-bit concatenation (bit 31 of w, bits 19 to 12, bit 20,
bits 30 to 21, a zero bit). -/
def specFieldsJ (w : Nat) : Nat :=
  bitsField w 31 1 * 2 ^ 20 + bitsField w 12 8 * 2 ^ 12 +
    bitsField w 20 1 * 2 ^ 11 + bitsField w 21 10 * 2

/-- Spec: imm_j is the sign-extension of the 21-bit J-format immediate. -/
def specImmJ (w : Nat) : Int :=
  signExtendSpec 21 (specFieldsJ w)

/-! ## Theorems settling the claims -/

/-- C1. The claim says every execute exception and every pending decode
error is paired with the pc of the faulting instruction itself; the code
pairs them with the pc of the following word. Evaluating the hart on the
word 0x0000005b (opcode 0x5b, which has no registered handler) fetched at
pc 0: the first cycle stores the decode error and advances, and the
second cycle returns IllegalInstruction tagged with pc 4, not with pc 0
where the faulting word was fetched. -/
theorem c1_decode_error_reported_at_following_pc :
    ((rv32iHart.cycle 0x5b 0).1.prev_pc,
     ((rv32iHart.cycle 0x5b 0).1.cycle 0x00000013 0).2) =
    (0, Except.error (ProcessorException.illegalInstruction, 4)) := rfl

/-- C2. The claim says the three-word ADDI chain boot image terminates
with x1 = 5, x2 = 8 and EnvironmentCall at pc 8. Evaluating the
processor: after the two addi instructions execute (x1 = 5, x2 = 8), the
cycle that would execute the ecall first fetches the word at pc 12,
which is past the 12-byte boot image, so the run terminates with
InvalidMemoryAccess OutOfBounds at pc 12 and the ecall never executes. -/
theorem c2_addi_chain_ends_out_of_bounds :
    ((Processor.run 10 addiChainProcessor).2,
     (Processor.run 10 addiChainProcessor).1.hart.registers 1,
     (Processor.run 10 addiChainProcessor).1.hart.registers 2) =
    (CycleResult.exception
       (ProcessorException.invalidMemoryAccess MemoryAccessError.outOfBounds) 12,
     Register.gp 5, Register.gp 8) := rfl

/-- C3. The claim says MMU::store writes exactly the low width bytes, so
a byte store leaves the byte at addr + 1 unchanged. Evaluating the code:
a SignedByte store of 0x0102 at 0x80000000 is routed to the halfword
helper and writes two bytes, changing the byte at addr + 1 from 0xbb to
0x01. -/
theorem c3_byte_store_writes_two_bytes :
    MMU.store twoByteMMU (StoreSpec.new MemoryAccessType.signedByte 0x80000000 0x0102) =
    MemOp.ok { rom := { contents := [] }, ram := { contents := [0x02, 0x01] } } := rfl

/-- C5. The claim says opcode 0x13 with funct3 = 101 decodes as SRAI when
imm_i has its bits 11 to 5 equal to 0100000 and is illegal for any value
of that field other than 0000000 and 0100000. Evaluating the decoder: the
canonical SRAI word 0x4000d093 (imm_i bits 11..5 = 0100000) is rejected
as illegal, while 0x0200d093 (imm_i bits 11..5 = 0000001) decodes as an
arithmetic shift; SRLI (0x0050d093) decodes as expected. -/
theorem c5_srai_decode :
    (SrIInstruction.new (InstructionWordParts.new 0x4000d093),
     SrIInstruction.new (InstructionWordParts.new 0x0050d093),
     SrIInstruction.new (InstructionWordParts.new 0x0200d093)) =
    (Except.error ProcessorException.illegalInstruction,
     Except.ok { src := 1, behaviour := RightShiftBehaviour.logical, imm := 5, dest := 1 },
     Except.ok { src := 1, behaviour := RightShiftBehaviour.arithmetic, imm := 0, dest := 1 }) :=
  rfl

/-- C6. The claim says every access whose end offset exceeds the backing
device length returns OutOfBounds and never panics, including ranges
near the top of the address space. Evaluating the code on the range
0xfffffffe..0x100000002 (a halfword touching the last RAM byte): the
masked RAM range is 0x7ffffffe..0x2, whose end passes the bounds check,
and the load panics on the reversed slice index while the store returns
LengthMismatch; an ordinary overrun (0x80010000..0x80010004 against 8
bytes of RAM) does return OutOfBounds. -/
theorem c6_wrapped_range_panics :
    (MMU.load_raw eightByteMMU 0xfffffffe 0x100000002,
     MMU.store_raw eightByteMMU 0xfffffffe 0x100000002 [1, 2],
     MMU.load_raw eightByteMMU 0x80010000 0x80010004) =
    (MemOp.crash,
     MemOp.err (ProcessorException.invalidMemoryAccess MemoryAccessError.lengthMismatch),
     MemOp.err (ProcessorException.invalidMemoryAccess MemoryAccessError.outOfBounds)) := rfl

/-- C4 counterexample. The claim says a BRANCH whose condition is false
never raises InstructionAddressMisaligned. The word 0x00209163 decodes at
pc 0 to bne x1, x2 with target offset 2; with the reset register file x1
and x2 are both 0, so the NotEqual condition is false, yet execute
returns InstructionAddressMisaligned because the source checks the
target alignment before evaluating the condition. -/
theorem c4_counterexample :
    (BranchInstruction.new (InstructionWordParts.new 0x00209163) 0,
     BranchCondition.holds BranchCondition.notEqual (Hart.new.registers.read 1)
       (Hart.new.registers.read 2),
     (BranchInstruction.execute bneMisalignedBranch Hart.new.registers 0).2) =
    (Except.ok bneMisalignedBranch, false,
     Except.error ProcessorException.instructionAddressMisaligned) := rfl

/-- C4 amended. BRANCH execute checks the alignment of the target
cur_pc + imm_b (wrapping) before evaluating the condition: a misaligned
target raises InstructionAddressMisaligned for every register-file
state, and when the target is aligned and the condition evaluates to
false, execute returns no exception, no jump and no store, leaving the
registers untouched. -/
theorem c4_branch_misaligned_checked_before_condition :
    ∀ (b : BranchInstruction) (regs : RegisterFile) (mem : Int),
      ((b.pc + u32ofInt b.offset) % 4294967296 % 4 ≠ 0 →
        b.execute regs mem =
          (regs, Except.error ProcessorException.instructionAddressMisaligned)) ∧
      ((b.pc + u32ofInt b.offset) % 4294967296 % 4 = 0 →
        BranchCondition.holds b.condition (regs.read b.src1) (regs.read b.src2) = false →
        b.execute regs mem = (regs, Except.ok InstructionResult.default)) := by
  intro b regs mem
  constructor
  · intro hmis
    simp [BranchInstruction.execute, hmis]
  · intro hal hcond
    simp [BranchInstruction.execute, hal, hcond]

/-- C4 witness: the amended theorem applied at the concrete bne branches
above: the misaligned one raises the exception and the aligned one with
a false condition executes without effect. -/
theorem c4_witness :
    BranchInstruction.execute bneMisalignedBranch Hart.new.registers 0 =
      (Hart.new.registers, Except.error ProcessorException.instructionAddressMisaligned) ∧
    BranchInstruction.execute bneAlignedBranch Hart.new.registers 0 =
      (Hart.new.registers, Except.ok InstructionResult.default) :=
  ⟨(c4_branch_misaligned_checked_before_condition bneMisalignedBranch
      Hart.new.registers 0).1 (by decide),
   (c4_branch_misaligned_checked_before_condition bneAlignedBranch
      Hart.new.registers 0).2 (by decide) (by decide)⟩

/-- Helper: when no instruction is pending, a hart cycle performs decode
only: the previous-instruction display is cleared, the register file is
untouched, and any returned memory access carries no store. -/
theorem Hart.cycle_decode_only (h : Hart) (raw : Nat) (mem : Int)
    (hn : h.next_instr = none) :
    (h.cycle raw mem).1.last_instr = none ∧
    (h.cycle raw mem).1.registers = h.registers ∧
    ∀ ma, (h.cycle raw mem).2 = Except.ok ma → ma.store = none := by
  simp only [Hart.cycle, hn, Hart.finishCycle]
  rcases hd : h.decode raw with e | instr
  · simp [hd]
  · simp only [hd]
    rcases hl : instr.load h.registers with e | l
    · simp [hl]
    · simp [hl]

/-- Helper: masking with a contiguous run of a ones starting at bit b
extracts the bit field at b, still shifted into place. -/
theorem land_field (w a b : Nat) :
    w &&& (2 ^ a - 1) * 2 ^ b = w / 2 ^ b % 2 ^ a * 2 ^ b := by
  apply Nat.eq_of_testBit_eq
  intro i
  rw [Nat.testBit_land]
  rcases Nat.lt_or_ge i b with hib | hib
  · have h1 : ((2 ^ a - 1) * 2 ^ b).testBit i = false := by
      rw [← Nat.shiftLeft_eq, Nat.testBit_shiftLeft]
      simp [Nat.not_le.mpr hib]
    have h2 : (w / 2 ^ b % 2 ^ a * 2 ^ b).testBit i = false := by
      rw [← Nat.shiftLeft_eq, Nat.testBit_shiftLeft]
      simp [Nat.not_le.mpr hib]
    simp [h1, h2]
  · have h1 : ((2 ^ a - 1) * 2 ^ b).testBit i = decide (i - b < a) := by
      rw [← Nat.shiftLeft_eq, Nat.testBit_shiftLeft]
      simp [hib]
    have h2 : (w / 2 ^ b % 2 ^ a * 2 ^ b).testBit i =
        (decide (i - b < a) && w.testBit i) := by
      rw [← Nat.shiftLeft_eq, Nat.testBit_shiftLeft, Nat.testBit_mod_two_pow,
        ← Nat.shiftRight_eq_div_pow, Nat.testBit_shiftRight]
      have hieq : b + (i - b) = i := by omega
      simp [hib, hieq]
    rw [h1, h2]
    cases hw : w.testBit i <;> cases hd : decide (i - b < a) <;> simp

/-- Helper: or of a multiple of 2 ^ i with a value below 2 ^ i is their
sum (the bit ranges are disjoint). -/
theorem lor_eq_add_pow (i m a b : Nat) (hm : m = 2 ^ i) (hb : b < m) :
    a * m ||| b = a * m + b := by
  subst hm
  rw [Nat.mul_comm]
  exact (Nat.mul_add_lt_is_or hb a).symm

/-- Helper: the B-format immediate extracted by the decoder equals the
sign-extension of the concatenation described by the specification. -/
theorem immB_eq_spec (w : Nat) : (InstructionWordParts.new w).imm_b = specImmB w := by
  have hb31 : w &&& 2147483648 = w / 2147483648 % 2 * 2147483648 := by
    simpa using land_field w 1 31
  have h7 : w &&& 128 = w / 128 % 2 * 128 := by
    simpa using land_field w 1 7
  have h25 : w &&& 2113929216 = w / 33554432 % 64 * 33554432 := by
    simpa using land_field w 6 25
  have h8 : w &&& 3840 = w / 256 % 16 * 256 := by
    simpa using land_field w 4 8
  show i32asr (i32ofNat ((w &&& 0x80000000) ||| u32shl (w &&& 0x80) 23 |||
      (w &&& 0x7e000000) >>> 1 ||| u32shl (w &&& 0xf00) 12)) 19 = specImmB w
  rw [hb31, h7, h25, h8]
  have e7 : u32shl (w / 128 % 2 * 128) 23 = w / 128 % 2 * 1073741824 := by
    simp only [u32shl, Nat.shiftLeft_eq]
    norm_num
    omega
  have e25 : (w / 33554432 % 64 * 33554432) >>> 1 = w / 33554432 % 64 * 16777216 := by
    simp only [Nat.shiftRight_eq_div_pow]
    norm_num
    omega
  have e8 : u32shl (w / 256 % 16 * 256) 12 = w / 256 % 16 * 1048576 := by
    simp only [u32shl, Nat.shiftLeft_eq]
    norm_num
    omega
  rw [e7, e25, e8]
  have o1 : w / 2147483648 % 2 * 2147483648 ||| w / 128 % 2 * 1073741824 =
      w / 2147483648 % 2 * 2147483648 + w / 128 % 2 * 1073741824 :=
    lor_eq_add_pow 31 2147483648 _ _ (by norm_num) (by omega)
  rw [o1]
  have s1 : w / 2147483648 % 2 * 2147483648 + w / 128 % 2 * 1073741824 =
      (w / 2147483648 % 2 * 2 + w / 128 % 2) * 1073741824 := by ring
  rw [s1]
  have o2 : (w / 2147483648 % 2 * 2 + w / 128 % 2) * 1073741824 |||
      w / 33554432 % 64 * 16777216 =
      (w / 2147483648 % 2 * 2 + w / 128 % 2) * 1073741824 +
        w / 33554432 % 64 * 16777216 :=
    lor_eq_add_pow 30 1073741824 _ _ (by norm_num) (by omega)
  rw [o2]
  have s2 : (w / 2147483648 % 2 * 2 + w / 128 % 2) * 1073741824 +
      w / 33554432 % 64 * 16777216 =
      ((w / 2147483648 % 2 * 2 + w / 128 % 2) * 64 + w / 33554432 % 64) * 16777216 := by
    ring
  rw [s2]
  have o3 : ((w / 2147483648 % 2 * 2 + w / 128 % 2) * 64 + w / 33554432 % 64) * 16777216 |||
      w / 256 % 16 * 1048576 =
      ((w / 2147483648 % 2 * 2 + w / 128 % 2) * 64 + w / 33554432 % 64) * 16777216 +
        w / 256 % 16 * 1048576 :=
    lor_eq_add_pow 24 16777216 _ _ (by norm_num) (by omega)
  rw [o3]
  simp only [i32asr, i32ofNat, specImmB, signExtendSpec, specFieldsB, bitsField]
  rw [Int.fdiv_eq_ediv _ (by norm_num : (0 : Int) ≤ 2 ^ 19)]
  norm_num
  split_ifs <;> omega

/-- Helper: the J-format immediate extracted by the decoder equals the
sign-extension of the concatenation described by the specification. -/
theorem immJ_eq_spec (w : Nat) : (InstructionWordParts.new w).imm_j = specImmJ w := by
  have hb31 : w &&& 2147483648 = w / 2147483648 % 2 * 2147483648 := by
    simpa using land_field w 1 31
  have h12 : w &&& 1044480 = w / 4096 % 256 * 4096 := by
    simpa using land_field w 8 12
  have h20 : w &&& 1048576 = w / 1048576 % 2 * 1048576 := by
    simpa using land_field w 1 20
  have h21 : w &&& 2145386496 = w / 2097152 % 1024 * 2097152 := by
    simpa using land_field w 10 21
  show i32asr (i32ofNat ((w &&& 0x80000000) ||| u32shl (w &&& 0xff000) 11 |||
      u32shl (w &&& 0x100000) 2 ||| (w &&& 0x7fe00000) >>> 9)) 11 = specImmJ w
  rw [hb31, h12, h20, h21]
  have e12 : u32shl (w / 4096 % 256 * 4096) 11 = w / 4096 % 256 * 8388608 := by
    simp only [u32shl, Nat.shiftLeft_eq]
    norm_num
    omega
  have e20 : u32shl (w / 1048576 % 2 * 1048576) 2 = w / 1048576 % 2 * 4194304 := by
    simp only [u32shl, Nat.shiftLeft_eq]
    norm_num
    omega
  have e21 : (w / 2097152 % 1024 * 2097152) >>> 9 = w / 2097152 % 1024 * 4096 := by
    simp only [Nat.shiftRight_eq_div_pow]
    norm_num
    omega
  rw [e12, e20, e21]
  have o1 : w / 2147483648 % 2 * 2147483648 ||| w / 4096 % 256 * 8388608 =
      w / 2147483648 % 2 * 2147483648 + w / 4096 % 256 * 8388608 :=
    lor_eq_add_pow 31 2147483648 _ _ (by norm_num) (by omega)
  rw [o1]
  have s1 : w / 2147483648 % 2 * 2147483648 + w / 4096 % 256 * 8388608 =
      (w / 2147483648 % 2 * 256 + w / 4096 % 256) * 8388608 := by ring
  rw [s1]
  have o2 : (w / 2147483648 % 2 * 256 + w / 4096 % 256) * 8388608 |||
      w / 1048576 % 2 * 4194304 =
      (w / 2147483648 % 2 * 256 + w / 4096 % 256) * 8388608 +
        w / 1048576 % 2 * 4194304 :=
    lor_eq_add_pow 23 8388608 _ _ (by norm_num) (by omega)
  rw [o2]
  have s2 : (w / 2147483648 % 2 * 256 + w / 4096 % 256) * 8388608 +
      w / 1048576 % 2 * 4194304 =
      ((w / 2147483648 % 2 * 256 + w / 4096 % 256) * 2 + w / 1048576 % 2) * 4194304 := by
    ring
  rw [s2]
  have o3 : ((w / 2147483648 % 2 * 256 + w / 4096 % 256) * 2 + w / 1048576 % 2) * 4194304 |||
      w / 2097152 % 1024 * 4096 =
      ((w / 2147483648 % 2 * 256 + w / 4096 % 256) * 2 + w / 1048576 % 2) * 4194304 +
        w / 2097152 % 1024 * 4096 :=
    lor_eq_add_pow 22 4194304 _ _ (by norm_num) (by omega)
  rw [o3]
  simp only [i32asr, i32ofNat, specImmJ, signExtendSpec, specFieldsJ, bitsField]
  rw [Int.fdiv_eq_ediv _ (by norm_num : (0 : Int) ≤ 2 ^ 11)]
  norm_num
  split_ifs <;> omega

/-- C7. For every word w, the decoder immediates satisfy the B- and
J-format layouts: imm_b is the sign-extension of the 13-bit value built
from bit 31, bit 7, bits 30..25 and bits 11..8 of w followed by a zero
bit, and imm_j is the sign-extension of the 21-bit value built from bit
31, bits 19..12, bit 20 and bits 30..21 of w followed by a zero bit.
Both sides depend only on the low 32 bits of w, so the equality holds
for every Nat. -/
theorem c7_b_and_j_immediate_layout (w : Nat) :
    (InstructionWordParts.new w).imm_b = specImmB w ∧
    (InstructionWordParts.new w).imm_j = specImmJ w :=
  ⟨immB_eq_spec w, immJ_eq_spec w⟩

/-- C9. A jump forces a pipeline bubble: when the pending instruction
executes with jump = some addr, the instruction decoded this cycle is
discarded (the pending slot becomes empty), and the following cycle
performs decode only: last_instr is cleared, the register file is
untouched and no store is produced. The same decode-only behaviour holds
for any hart whose pending slot is empty, as after construction or
reset. -/
theorem c9_pipeline_bubble :
    (∀ (h : Hart) (raw : Nat) (mem : Int) (instr : Instruction) (regs : RegisterFile)
       (result : InstructionResult) (addr : Nat) (raw2 : Nat) (mem2 : Int),
      h.next_instr = some (Except.ok instr) →
      instr.execute h.registers mem = (regs, Except.ok result) →
      result.jump = some addr →
      (h.cycle raw mem).1.next_instr = none ∧
      (h.cycle raw mem).2 = Except.ok { load := none, store := result.store } ∧
      ((h.cycle raw mem).1.cycle raw2 mem2).1.last_instr = none ∧
      ((h.cycle raw mem).1.cycle raw2 mem2).1.registers = (h.cycle raw mem).1.registers ∧
      ∀ ma, ((h.cycle raw mem).1.cycle raw2 mem2).2 = Except.ok ma → ma.store = none) ∧
    (∀ (h : Hart) (raw : Nat) (mem : Int),
      h.next_instr = none →
      (h.cycle raw mem).1.last_instr = none ∧
      (h.cycle raw mem).1.registers = h.registers ∧
      ∀ ma, (h.cycle raw mem).2 = Except.ok ma → ma.store = none) := by
  constructor
  · intro h raw mem instr regs result addr raw2 mem2 hn hE hj
    have hc : h.cycle raw mem =
        ({ h with registers := regs, last_instr := some instr.format,
                  pc := addr, prev_pc := h.pc, next_instr := none },
         Except.ok { load := none, store := result.store }) := by
      simp only [Hart.cycle, hn, hE, hj, Hart.finishCycle]
    rw [hc]
    refine ⟨rfl, rfl, ?_⟩
    exact Hart.cycle_decode_only _ raw2 mem2 rfl
  · intro h raw mem hn
    exact Hart.cycle_decode_only h raw mem hn

/-- C9 witness: the bubble theorem applied to the hart whose pending
instruction is the concrete unconditional jump to 0, and the decode-only
clause applied to the freshly constructed RV32I hart. -/
theorem c9_witness :
    ((jumpingHart.cycle 0x13 0).1.next_instr = none ∧
     (jumpingHart.cycle 0x13 0).2 =
       Except.ok { load := none, store := (InstructionResult.set_jump 0).store } ∧
     ((jumpingHart.cycle 0x13 0).1.cycle 0x13 0).1.last_instr = none ∧
     ((jumpingHart.cycle 0x13 0).1.cycle 0x13 0).1.registers =
       (jumpingHart.cycle 0x13 0).1.registers ∧
     ∀ ma, ((jumpingHart.cycle 0x13 0).1.cycle 0x13 0).2 = Except.ok ma →
       ma.store = none) ∧
    ((rv32iHart.cycle 0x13 0).1.last_instr = none ∧
     (rv32iHart.cycle 0x13 0).1.registers = rv32iHart.registers ∧
     ∀ ma, (rv32iHart.cycle 0x13 0).2 = Except.ok ma → ma.store = none) :=
  ⟨c9_pipeline_bubble.1 jumpingHart 0x13 0 jumpInstruction jumpingHart.registers
     (InstructionResult.set_jump 0) 0 0x13 0 rfl rfl rfl,
   c9_pipeline_bubble.2 rv32iHart 0x13 0 rfl⟩

/-- C10. Whenever Hart::cycle returns an error, the pc, prev_pc, pending
decoded instruction and opcode map are exactly as they were on entry:
every early return in the source happens before the pipeline-state
update, so only last_instr and the register file may have changed. -/
theorem c10_cycle_error_frame :
    ∀ (h : Hart) (raw : Nat) (mem : Int) (e : ProcessorException) (pc2 : Nat),
      (h.cycle raw mem).2 = Except.error (e, pc2) →
      (h.cycle raw mem).1.pc = h.pc ∧
      (h.cycle raw mem).1.prev_pc = h.prev_pc ∧
      (h.cycle raw mem).1.next_instr = h.next_instr ∧
      (h.cycle raw mem).1.opcodes = h.opcodes := by
  intro h raw mem e pc2 herr
  rcases hc : h.cycle raw mem with ⟨h2, r⟩
  rw [hc] at herr
  simp only at herr ⊢
  simp only [Hart.cycle, Hart.finishCycle] at hc
  rcases hn : h.next_instr with _ | ee
  · simp only [hn] at hc
    rcases hd : h.decode raw with de | instr
    · simp only [hd] at hc
      injection hc with hA hB
      subst hA; subst hB
      simp at herr
    · simp only [hd] at hc
      rcases hl : instr.load h.registers with le | l
      · simp only [hl] at hc
        injection hc with hA hB
        subst hA
        simp [hn]
      · simp only [hl] at hc
        injection hc with hA hB
        subst hA; subst hB
        simp at herr
  · rcases ee with ee | instr
    · simp only [hn] at hc
      injection hc with hA hB
      subst hA
      simp [hn]
    · simp only [hn] at hc
      rcases hE : instr.execute h.registers mem with ⟨regs, res⟩
      rcases res with re | result
      · simp only [hE] at hc
        injection hc with hA hB
        subst hA
        simp [hn]
      · simp only [hE] at hc
        rcases hj : result.jump with _ | addr
        · simp only [hj] at hc
          rcases hd : h.decode raw with de | instr2
          · simp only [hd] at hc
            injection hc with hA hB
            subst hA; subst hB
            simp at herr
          · simp only [hd] at hc
            rcases hl : instr2.load regs with le | l
            · simp only [hl] at hc
              injection hc with hA hB
              subst hA
              simp [hn]
            · simp only [hl] at hc
              injection hc with hA hB
              subst hA; subst hB
              simp at herr
        · simp only [hj] at hc
          injection hc with hA hB
          subst hA; subst hB
          simp at herr

/-- C10 witness: the frame theorem applied to the RV32I hart whose
pending slot holds a decode error, whose cycle returns that error. -/
theorem c10_witness :
    (pendingErrorHart.cycle 0x13 0).1.pc = pendingErrorHart.pc ∧
    (pendingErrorHart.cycle 0x13 0).1.prev_pc = pendingErrorHart.prev_pc ∧
    (pendingErrorHart.cycle 0x13 0).1.next_instr = pendingErrorHart.next_instr ∧
    (pendingErrorHart.cycle 0x13 0).1.opcodes = pendingErrorHart.opcodes :=
  c10_cycle_error_frame pendingErrorHart 0x13 0 ProcessorException.illegalInstruction 0 rfl

/-- C8 counterexample. The claim quantifies over every range entirely
inside RAM. With 2 GiB of RAM, the one-byte range starting at 0xffffffff
lies inside RAM (masked offset 0x7fffffff, offset plus length equal to
the RAM size), yet the store fails: the exclusive range end 0x100000000
masks to 0, so the range length check sees an empty range and returns
LengthMismatch instead of performing the store. -/
theorem c8_counterexample :
    (4294967295 &&& 2147483647) + 1 ≤ twoGiBMMU.ram.contents.length ∧
    MMU.store_raw twoGiBMMU 4294967295 4294967296 [7] =
      MemOp.err (ProcessorException.invalidMemoryAccess MemoryAccessError.lengthMismatch) := by
  have hlen : twoGiBMMU.ram.contents.length = 2147483648 := by
    simp only [twoGiBMMU, RAM.new, List.length_replicate]
  have m0 : (4294967295 : Nat) &&& 2147483648 = 2147483648 := by decide
  have m1 : (4294967295 : Nat) &&& 2147483647 = 2147483647 := by decide
  have m2 : (4294967296 : Nat) &&& 2147483647 = 0 := by decide
  constructor
  · rw [m1, hlen]
  · have hstore : RAM.store_raw twoGiBMMU.ram 2147483647 0 [7] =
        MemOp.err (ProcessorException.invalidMemoryAccess MemoryAccessError.lengthMismatch) := by
      simp only [RAM.store_raw, hlen]
      rw [if_neg (by norm_num), if_pos (by norm_num)]
      rfl
    simp only [MMU.store_raw, m0, m1, m2]
    rw [if_neg (by norm_num), hstore]

/-- C8 amended. For every address range that lies entirely inside RAM
(top bit of the 32-bit start address set, masked offset plus length
within the RAM size) and whose end start + length stays below 2^32,
storing a byte sequence of the range length and loading the same range
back succeeds and yields exactly that sequence. -/
theorem c8_ram_roundtrip :
    ∀ (rom ram : List Nat) (start : Nat) (s : List Nat),
      start < 4294967296 → 2147483648 ≤ start →
      start + s.length < 4294967296 →
      (start &&& 2147483647) + s.length ≤ ram.length →
      ∃ ram2,
        MMU.store_raw { rom := { contents := rom }, ram := { contents := ram } }
            start (start + s.length) s =
          MemOp.ok { rom := { contents := rom }, ram := { contents := ram2 } } ∧
        MMU.load_raw { rom := { contents := rom }, ram := { contents := ram2 } }
            start (start + s.length) = MemOp.ok s := by
  intro rom ram start s h1 h2 h3 h4
  have hm : (2147483647 : Nat) = 2 ^ 31 - 1 := by norm_num
  have hs : start &&& 2147483647 = start - 2147483648 := by
    rw [hm, Nat.and_pow_two_sub_one_eq_mod]
    omega
  have he : (start + s.length) &&& 2147483647 = start - 2147483648 + s.length := by
    rw [hm, Nat.and_pow_two_sub_one_eq_mod]
    omega
  have hb : start &&& 2147483648 = 2147483648 := by
    have h := land_field start 1 31
    norm_num at h
    rw [h]
    omega
  rw [hs] at h4
  have hTakeLen : (ram.take (start - 2147483648)).length = start - 2147483648 := by
    simp
    omega
  refine ⟨(ram.take (start - 2147483648) ++ s ++
      ram.drop (start - 2147483648 + s.length)), ?_, ?_⟩
  · have hstore : RAM.store_raw { contents := ram } (start - 2147483648)
        (start - 2147483648 + s.length) s =
        MemOp.ok { contents := (ram.take (start - 2147483648) ++ s ++
          ram.drop (start - 2147483648 + s.length)) } := by
      simp only [RAM.store_raw]
      rw [if_neg (by simp; omega), if_neg (by omega), if_neg (by omega)]
    simp only [MMU.store_raw, hb, hs, he]
    rw [if_neg (by norm_num), hstore]
  · have hload : RAM.load_raw { contents := (ram.take (start - 2147483648) ++ s ++
        ram.drop (start - 2147483648 + s.length)) } (start - 2147483648)
        (start - 2147483648 + s.length) = MemOp.ok s := by
      simp only [RAM.load_raw]
      have hlen2 : (ram.take (start - 2147483648) ++ s ++
          ram.drop (start - 2147483648 + s.length)).length = ram.length := by
        simp
        omega
      rw [if_neg (by simp only [hlen2]; omega), if_neg (by omega)]
      have hdrop : (ram.take (start - 2147483648) ++ s ++
          ram.drop (start - 2147483648 + s.length)).drop (start - 2147483648) =
          s ++ ram.drop (start - 2147483648 + s.length) := by
        rw [List.append_assoc]
        exact List.drop_left' hTakeLen
      rw [hdrop]
      have htk : start - 2147483648 + s.length - (start - 2147483648) = s.length := by
        omega
      rw [htk]
      rw [List.take_left' rfl]
    simp only [MMU.load_raw, hb, hs, he]
    rw [if_neg (by norm_num), hload]

/-- C8 witness: the round trip at a concrete range: four bytes of RAM,
storing [5, 6] at address 0x80000001 and loading it back. -/
theorem c8_witness :
    ∃ ram2,
      MMU.store_raw { rom := { contents := [] }, ram := { contents := [0, 0, 0, 0] } }
          2147483649 (2147483649 + [5, 6].length) [5, 6] =
        MemOp.ok { rom := { contents := [] }, ram := { contents := ram2 } } ∧
      MMU.load_raw { rom := { contents := [] }, ram := { contents := ram2 } }
          2147483649 (2147483649 + [5, 6].length) = MemOp.ok [5, 6] :=
  c8_ram_roundtrip [] [0, 0, 0, 0] 2147483649 [5, 6]
    (by decide) (by decide) (by decide) (by decide)

end Z2L
